import Mathlib

/-!
Verification of the recipe-explorer backend (`src/recipe_backend/src/api/`).

The Python service is shallowly embedded: the relational store (SQLAlchemy
over Postgres) becomes an explicit `Store` record of lists, each endpoint
handler becomes a pure function from arguments and a `Store` to a result
paired with the post-state, and the external collaborators (passlib's bcrypt
hasher, python-jose's JWT codec, FastAPI's dependency resolution) are modelled
by their documented contracts.  Machine integers: ids and timestamps are
database integers with no overflow behaviour in play, so they are `Nat`.
-/

namespace RecipeExplorer

/-- Hashed password as stored in `users.hashed_password`.
Modelled from the spec: the Password Hasher (passlib bcrypt, external to the
repository) produces a salted irreversible digest; `verify` is true iff the
plaintext matches the one that was hashed.  The digest is modelled as the
pair of the random salt and the plaintext it commits to, which realises the
contract "verify(p, hash(p)) = true, different salts give different outputs"
without modelling bcrypt's internals. -/
structure Hash where
  salt : Nat
  committed : String
deriving Repr, DecidableEq

/-- Embeds `hash_password` (auth.py line 20): hash with a fresh random salt.
The salt is passed explicitly as an oracle for the randomness. -/
def hash_password (salt : Nat) (password : String) : Hash :=
  ⟨salt, password⟩

/-- Embeds `verify_password` (auth.py line 25): true iff the plaintext,
hashed with the salt embedded in the digest, matches the digest. -/
def verify_password (password : String) (hashed : Hash) : Bool :=
  password == hashed.committed

/-- Embeds `JWT_SECRET` (auth.py line 12): the signing secret; the
environment is modelled as unset, so the insecure fallback is used.  The
claims under study do not depend on its value, only on equality of the
issuing and verifying secret. -/
def JWT_SECRET : String := "SECRET_KEY_CHANGE_ME"

/-- Embeds `ACCESS_TOKEN_EXPIRE_MINUTES` (auth.py line 14): 7 days. -/
def ACCESS_TOKEN_EXPIRE_MINUTES : Nat := 60 * 24 * 7

/-- JWT payload as built by `create_access_token`: a subject claim and an
absolute expiry.  `sub` is optional because `get_current_user` handles a
payload without a subject (`payload.get` returning None). -/
structure Payload where
  sub : Option Nat
  exp : Nat
deriving Repr, DecidableEq

/-- Signed token. Modelled from the spec: python-jose's `jwt.encode` is
external to the repository; a token is its payload together with the secret
it was signed with, and decoding with the wrong secret fails.  Timestamps
are abstract minutes. -/
structure Token where
  payload : Payload
  secret : String
deriving Repr, DecidableEq

/-- Errors raised by python-jose's `jwt.decode`; both are subclasses of
`JWTError`, which is what `get_current_user` catches. -/
inductive JWTError where
  | invalidSignature
  | expiredSignature
deriving Repr, DecidableEq

/-- Modelled from the spec: python-jose's `jwt.decode` (external to the
repository) checks the signature and the expiry; per its contract the token
is expired when the embedded `exp` lies strictly before the current time. -/
def jwt_decode (token : Token) (secret : String) (now : Nat) :
    Except JWTError Payload :=
  if token.secret ≠ secret then .error .invalidSignature
  else if token.payload.exp < now then .error .expiredSignature
  else .ok token.payload

/-- Embeds `create_access_token` (auth.py lines 30-38) as called by `login`
with `data = ("sub", user_id)` and no `expires_delta`: the expiry is the
current time plus the 7-day default. -/
def create_access_token (user_id : Nat) (now : Nat) : Token :=
  ⟨⟨some user_id, now + ACCESS_TOKEN_EXPIRE_MINUTES⟩, JWT_SECRET⟩

/-- Structured HTTP error, as raised through FastAPI's `HTTPException`. -/
structure Err where
  status : Nat
  detail : String
deriving Repr, DecidableEq

/-- Error of `register` on an already-registered email (auth_router.py 17). -/
def duplicateEmail : Err := ⟨400, "Email already registered"⟩

/-- Error of `login` on unknown email or wrong password (auth_router.py 33). -/
def invalidCredentials : Err := ⟨401, "Incorrect email or password"⟩

/-- Error raised by FastAPI's `OAuth2PasswordBearer` when the Authorization
header is absent and `auto_error` is left at its default `True`
(auth.py line 17). -/
def notAuthenticated : Err := ⟨401, "Not authenticated"⟩

/-- Error of `get_current_user` on a token that fails decoding, lacks a
subject, or names an unknown user (auth.py lines 45-49). -/
def credentialsException : Err := ⟨401, "Could not validate credentials"⟩

/-- Error of the recipe endpoints on an unknown recipe id. -/
def recipeNotFound : Err := ⟨404, "Recipe not found"⟩

/-- Error of `update_recipe` and `delete_recipe` on a non-owner actor. -/
def forbiddenErr : Err := ⟨403, "Forbidden"⟩

/-- Row of the `users` table (db_models.py lines 16-27). -/
structure User where
  id : Nat
  email : String
  hashed_password : Hash
  is_active : Bool
deriving Repr, DecidableEq

/-- Row of the `recipes` table (db_models.py lines 29-42). `description` is
a nullable column; `ingredients` and `instructions` are Postgres string
arrays. -/
structure Recipe where
  id : Nat
  title : String
  description : Option String
  ingredients : List String
  instructions : List String
  owner_id : Nat
deriving Repr, DecidableEq

/-- The relational store: `users`, `recipes`, and the `favorites`
association table of (user_id, recipe_id) rows (db_models.py lines 9-14).
`nextUserId` and `nextRecipeId` model the autoincrementing primary keys. -/
structure Store where
  users : List User
  recipes : List Recipe
  favorites : List (Nat × Nat)
  nextUserId : Nat
  nextRecipeId : Nat
deriving Repr, DecidableEq

/-- Response schema `UserResponse` (models.py lines 20-24). -/
structure UserResponse where
  id : Nat
  email : String
  is_active : Bool
deriving Repr, DecidableEq

/-- Embeds the query `select(User).where(User.email == email)` with
`scalar_one_or_none()` under the unique constraint on `users.email`. -/
def findUserByEmail (s : Store) (email : String) : Option User :=
  s.users.find? (fun u => u.email == email)

/-- Embeds the query `select(User).where(User.id == uid)` with
`scalar_one_or_none()`. -/
def findUserById (s : Store) (uid : Nat) : Option User :=
  s.users.find? (fun u => u.id == uid)

/-- Embeds `db.get(Recipe, recipe_id)`: primary-key lookup. -/
def findRecipe (s : Store) (rid : Nat) : Option Recipe :=
  s.recipes.find? (fun r => r.id == rid)

/-- Embeds `register` (auth_router.py lines 12-23): reject a known email
with 400, otherwise hash the password, insert the user (with the column
default `is_active = true`) and return its public fields.  The `salt`
argument is the hasher's randomness oracle.  An error leaves the store
untouched, matching the raise occurring before any `db.add`/`commit`. -/
def register (email password : String) (salt : Nat) (s : Store) :
    Except Err UserResponse × Store :=
  match findUserByEmail s email with
  | some _ => (.error duplicateEmail, s)
  | none =>
    let db_user : User := ⟨s.nextUserId, email, hash_password salt password, true⟩
    (.ok ⟨db_user.id, db_user.email, db_user.is_active⟩,
     { s with users := s.users ++ [db_user], nextUserId := s.nextUserId + 1 })

/-- Embeds `login` (auth_router.py lines 27-35): look the user up by email;
if there is no user or the password fails verification, raise the one
`invalidCredentials` error; otherwise issue a token on the user's id.
`now` is the clock read by `create_access_token`. -/
def login (email password : String) (now : Nat) (s : Store) : Except Err Token :=
  match findUserByEmail s email with
  | none => .error invalidCredentials
  | some db_user =>
    if verify_password password db_user.hashed_password then
      .ok (create_access_token db_user.id now)
    else
      .error invalidCredentials

/-- Embeds `oauth2_scheme` (auth.py line 17): FastAPI's
`OAuth2PasswordBearer` with the default `auto_error=True` raises 401
"Not authenticated" when the request carries no bearer token, and otherwise
yields the token. -/
def oauth2_scheme (bearer : Option Token) : Except Err Token :=
  match bearer with
  | none => .error notAuthenticated
  | some t => .ok t

/-- Embeds `get_current_user` (auth.py lines 41-61) together with its
`oauth2_scheme` dependency: extract the bearer token, decode it, read the
`sub` claim, and look the user up; every failure is the same 401. -/
def get_current_user (s : Store) (bearer : Option Token) (now : Nat) :
    Except Err User :=
  match oauth2_scheme bearer with
  | .error e => .error e
  | .ok token =>
    match jwt_decode token JWT_SECRET now with
    | .error _ => .error credentialsException
    | .ok payload =>
      match payload.sub with
      | none => .error credentialsException
      | some user_id =>
        match findUserById s user_id with
        | none => .error credentialsException
        | some user => .ok user

/-- Request schema `RecipeCreate` (models.py lines 35-46): `title`,
`ingredients` and `instructions` are required, `description` optional. -/
structure RecipeCreate where
  title : String
  description : Option String
  ingredients : List String
  instructions : List String
deriving Repr, DecidableEq

/-- Request schema `RecipeUpdate` (models.py lines 50-52).  It inherits
`RecipeBase` unchanged, so `title`, `ingredients` and `instructions` are
required fields — a validated request always carries them — while
`description` defaults to None and may be absent: the outer `Option` is the
pydantic set/unset state observed by `dict(exclude_unset=True)`, the inner
one the nullable value itself. -/
structure RecipeUpdate where
  title : String
  description : Option (Option String)
  ingredients : List String
  instructions : List String
deriving Repr, DecidableEq

/-- Response schema `RecipeResponse` (models.py lines 56-60). -/
structure RecipeResponse where
  id : Nat
  title : String
  description : Option String
  ingredients : List String
  instructions : List String
  owner_id : Nat
  is_favorite : Bool
deriving Repr, DecidableEq

/-- Response schema `RecipeListResponse` (models.py lines 64-67). -/
structure RecipeListResponse where
  recipes : List RecipeResponse
  total : Nat
deriving Repr, DecidableEq

/-- Builds a `RecipeResponse` from a stored row plus the computed
`is_favorite` flag, as every handler does field by field. -/
def respOf (r : Recipe) (fav : Bool) : RecipeResponse :=
  ⟨r.id, r.title, r.description, r.ingredients, r.instructions, r.owner_id, fav⟩

/-- Characters of a string lowercased, the normal form on which the
case-insensitive SQL comparisons below operate. -/
def lowerChars (s : String) : List Char :=
  s.toList.map Char.toLower

/-- Case-insensitive substring test: `needle` occurs contiguously in `hay`
after lowercasing both.  This is the spec's reading of the browse filter
("contains the substring"), kept separate from the code's ILIKE semantics
so the two can be compared. -/
def containsCI (hay needle : String) : Bool :=
  (lowerChars hay).tails.any (fun t => (lowerChars needle).isPrefixOf t)

/-- Token of a SQL LIKE pattern: `%` (any run of characters), `_` (exactly
one character), or a literal character. -/
inductive LikeTok where
  | any
  | one
  | lit (c : Char)
deriving Repr, DecidableEq

/-- Worker of `parseLike`; the flag records that the previous character
was an unconsumed escaping backslash. -/
def parseLikeAux : Bool → List Char → List LikeTok
  | false, [] => []
  | true, [] => [.lit '\\']
  | true, c :: ps => .lit c :: parseLikeAux false ps
  | false, c :: ps =>
    if c = '%' then .any :: parseLikeAux false ps
    else if c = '_' then .one :: parseLikeAux false ps
    else if c = '\\' then parseLikeAux true ps
    else .lit c :: parseLikeAux false ps

/-- Tokenizes a SQL LIKE pattern as Postgres reads it: `%` and `_` are
wildcards, a backslash (the default escape character, no ESCAPE clause
appears in the code) makes the following character literal.  A lone
trailing backslash is an error in Postgres; it is mapped to a literal
backslash here, a case none of the theorems depends on. -/
def parseLike (cs : List Char) : List LikeTok :=
  parseLikeAux false cs

/-- Matches a tokenized LIKE pattern against a character list: `%` lets
the rest of the pattern match any suffix, `_` consumes one character, a
literal consumes exactly itself. -/
def likeRun : List LikeTok → List Char → Bool
  | [], t => t.isEmpty
  | .any :: ps, t => t.tails.any (fun u => likeRun ps u)
  | .one :: ps, t =>
    match t with
    | [] => false
    | _ :: t2 => likeRun ps t2
  | .lit c :: ps, t =>
    match t with
    | [] => false
    | d :: t2 => (c == d) && likeRun ps t2

/-- Embeds `column.ilike(f"%{q}%")` (recipe_router.py lines 64-65): the
query is interpolated into the pattern unescaped, so any `%`, `_` or `\`
it carries keeps its SQL meaning; ILIKE compares case-insensitively, i.e.
LIKE over the lowercased pattern and operand. -/
def ilikeWrapped (hay q : String) : Bool :=
  likeRun (parseLike ('%' :: lowerChars q ++ ['%'])) (lowerChars hay)

/-- Embeds the `where` clause of `browse_recipes` (recipe_router.py lines
63-67): title ILIKE percent-q-percent, OR description ILIKE likewise, OR
the ingredients array contains the query exactly.  A NULL description
never matches (SQL three-valued logic). -/
def matchesQuery (q : String) (r : Recipe) : Bool :=
  ilikeWrapped r.title q ||
  (match r.description with
   | none => false
   | some d => ilikeWrapped d q) ||
  r.ingredients.contains q

/-- Embeds the favorite-id query of `browse_recipes` (recipe_router.py
lines 76-79): `select(Recipe.id).join(Recipe.favorited_by).where(User.id ==
current_user.id)` — the ids of recipe rows joined to the viewer through the
favorites table. -/
def favIdsOf (s : Store) (uid : Nat) : List Nat :=
  (s.recipes.filter
    (fun r => s.favorites.any (fun p => p.1 == uid && p.2 == r.id))).map
    (fun r => r.id)

/-- Embeds the handler body of `browse_recipes` (recipe_router.py lines
48-92): filter when a non-empty query is given (`if q:` is false on None
and on the empty string), then apply offset and limit, then annotate each
row with membership in the viewer's favorite-id set (empty when anonymous).
`total` is the length of the returned page. -/
def browse_recipes (q : Option String) (skip limit : Nat)
    (current_user : Option User) (s : Store) : RecipeListResponse :=
  let filtered :=
    match q with
    | none => s.recipes
    | some qs => if qs = "" then s.recipes else s.recipes.filter (matchesQuery qs)
  let page := (filtered.drop skip).take limit
  let fav_ids :=
    match current_user with
    | none => ([] : List Nat)
    | some u => favIdsOf s u.id
  ⟨page.map (fun r => respOf r (fav_ids.contains r.id)), page.length⟩

/-- Embeds the handler body of `get_recipe` (recipe_router.py lines
96-122): 404 on an unknown id, otherwise the row annotated with the
viewer's favorite flag (false when anonymous). -/
def get_recipe (rid : Nat) (current_user : Option User) (s : Store) :
    Except Err RecipeResponse :=
  match findRecipe s rid with
  | none => .error recipeNotFound
  | some r =>
    let is_favorite :=
      match current_user with
      | none => false
      | some u => s.favorites.any (fun p => p.1 == u.id && p.2 == rid)
    .ok (respOf r is_favorite)

/-- Embeds `create_recipe` (recipe_router.py lines 18-43): insert a new row
owned by the current user and return it with `is_favorite = false`. -/
def create_recipe (rc : RecipeCreate) (current_user : User) (s : Store) :
    Except Err RecipeResponse × Store :=
  let db_recipe : Recipe :=
    ⟨s.nextRecipeId, rc.title, rc.description, rc.ingredients,
     rc.instructions, current_user.id⟩
  (.ok (respOf db_recipe false),
   { s with recipes := s.recipes ++ [db_recipe],
            nextRecipeId := s.nextRecipeId + 1 })

/-- Embeds the `setattr` loop of `update_recipe` (recipe_router.py lines
139-140): `dict(exclude_unset=True)` holds the always-present `title`,
`ingredients` and `instructions` plus `description` exactly when it was
supplied, and each held field overwrites the row's column. -/
def applyUpdate (r : Recipe) (u : RecipeUpdate) : Recipe :=
  { r with
    title := u.title,
    ingredients := u.ingredients,
    instructions := u.instructions,
    description :=
      match u.description with
      | none => r.description
      | some d => d }

/-- Embeds `update_recipe` (recipe_router.py lines 126-152): 404 on an
unknown id, 403 when the actor is not the owner, otherwise apply the
supplied fields, commit the row, and answer with `is_favorite` hard-coded
to false.  A raise occurs before any mutation, so the store is unchanged on
error. -/
def update_recipe (rid : Nat) (upd : RecipeUpdate) (current_user : User)
    (s : Store) : Except Err RecipeResponse × Store :=
  match findRecipe s rid with
  | none => (.error recipeNotFound, s)
  | some db_recipe =>
    if db_recipe.owner_id != current_user.id then (.error forbiddenErr, s)
    else
      let r := applyUpdate db_recipe upd
      (.ok (respOf r false),
       { s with recipes := s.recipes.map (fun x => if x.id == rid then r else x) })

/-- Embeds `delete_recipe` (recipe_router.py lines 156-170): 404 on an
unknown id, 403 when the actor is not the owner, otherwise delete the row.
`db.delete` on a mapped object whose many-to-many relationship goes through
`secondary=favorites_table` also deletes the association rows referencing
it (SQLAlchemy's default handling of secondary tables), which the model
makes explicit by filtering `favorites`. -/
def delete_recipe (rid : Nat) (current_user : User) (s : Store) :
    Except Err Unit × Store :=
  match findRecipe s rid with
  | none => (.error recipeNotFound, s)
  | some db_recipe =>
    if db_recipe.owner_id != current_user.id then (.error forbiddenErr, s)
    else
      (.ok (),
       { s with recipes := s.recipes.filter (fun x => !(x.id == rid)),
                favorites := s.favorites.filter (fun p => !(p.2 == rid)) })

/-- Embeds `add_favorite` (recipe_router.py lines 174-189): 404 on an
unknown recipe, otherwise append the association row only when it is not
already present (`if recipe not in current_user.favorites`), and answer 201
either way. -/
def add_favorite (rid : Nat) (current_user : User) (s : Store) :
    Except Err Unit × Store :=
  match findRecipe s rid with
  | none => (.error recipeNotFound, s)
  | some _ =>
    if s.favorites.any (fun p => p.1 == current_user.id && p.2 == rid) then
      (.ok (), s)
    else
      (.ok (), { s with favorites := s.favorites ++ [(current_user.id, rid)] })

/-- Embeds `remove_favorite` (recipe_router.py lines 193-207): 404 on an
unknown recipe, otherwise delete the association row when present
(`if recipe in current_user.favorites`) and do nothing when not.  The
filter removes the (user, recipe) row; the association table's composite
primary key guarantees it occurs at most once. -/
def remove_favorite (rid : Nat) (current_user : User) (s : Store) :
    Except Err Unit × Store :=
  match findRecipe s rid with
  | none => (.error recipeNotFound, s)
  | some _ =>
    if s.favorites.any (fun p => p.1 == current_user.id && p.2 == rid) then
      (.ok (),
       { s with favorites :=
          s.favorites.filter (fun p => !(p.1 == current_user.id && p.2 == rid)) })
    else
      (.ok (), s)

/-- FastAPI resolution of the `browse_recipes` route (recipe_router.py
lines 48-54): although the parameter is annotated `Optional[User]`, its
default is `Depends(get_current_user)`, so the dependency always runs and
any 401 it raises aborts the request before the handler body executes. -/
def browse_endpoint (s : Store) (bearer : Option Token) (now : Nat)
    (q : Option String) (skip limit : Nat) : Except Err RecipeListResponse :=
  match get_current_user s bearer now with
  | .error e => .error e
  | .ok u => .ok (browse_recipes q skip limit (some u) s)

/-- FastAPI resolution of the `get_recipe` route (recipe_router.py lines
96-101): as with browse, the `Optional[User]` annotation does not make the
dependency optional — `get_current_user` runs and its 401 aborts the
request. -/
def get_endpoint (s : Store) (bearer : Option Token) (now : Nat)
    (rid : Nat) : Except Err RecipeResponse :=
  match get_current_user s bearer now with
  | .error e => .error e
  | .ok u => get_recipe rid (some u) s

/-- Validity of the favorites table: every association row references an
existing recipe row. -/
def favRefsValid (s : Store) : Prop :=
  ∀ p ∈ s.favorites, ∃ r ∈ s.recipes, r.id = p.2

instance (s : Store) : Decidable (favRefsValid s) :=
  inferInstanceAs (Decidable (∀ p ∈ s.favorites, ∃ r ∈ s.recipes, r.id = p.2))

/-- Sample user for concrete evaluations. -/
def demoUser : User := ⟨1, "alice@example.com", ⟨7, "secret1"⟩, true⟩

/-- Sample recipe owned by `demoUser`. -/
def demoRecipe : Recipe :=
  ⟨1, "Omelet", some "Egg breakfast", ["egg", "salt"], ["mix", "fry"], 1⟩

/-- Sample store holding `demoUser` and `demoRecipe`. -/
def demoStore : Store := ⟨[demoUser], [demoRecipe], [], 2, 2⟩

/-- A token signed with a secret other than the server's. -/
def demoBadToken : Token := ⟨⟨some 1, 999999⟩, "WRONG_SECRET"⟩

/-- A correctly signed token whose expiry (100) lies in the past at the
evaluation time 200. -/
def demoExpiredToken : Token := ⟨⟨some 1, 100⟩, JWT_SECRET⟩

theorem find?_append_of_none {α : Type} {p : α → Bool} {l₁ : List α}
    (l₂ : List α) (h : l₁.find? p = none) :
    (l₁ ++ l₂).find? p = l₂.find? p := by
  simp [List.find?_append, h]

/-- C1. The spec claims the read endpoints `browse` and `get` serve
requests with a missing, invalid, or expired bearer token anonymously.
The code does not: `current_user` is annotated `Optional[User]` but its
default is `Depends(get_current_user)`, which FastAPI always executes, and
`oauth2_scheme` is built with the default `auto_error=True`; hence a
missing token is rejected 401 by the scheme and an invalid or expired one
401 by `get_current_user`, before the handler body runs.  This theorem
evaluates both endpoints at the failing inputs: anonymous, wrongly signed,
and expired requests against a store holding one user and one recipe all
return an auth error instead of an anonymous page.  (The handler's own
`if current_user:` branch and its docstring show anonymous service was the
intent, so this is a slip in the code, not in the spec.) -/
theorem c1_read_endpoints_reject_anonymous_callers :
    browse_endpoint demoStore none 0 none 0 20 = .error notAuthenticated ∧
    get_endpoint demoStore none 0 1 = .error notAuthenticated ∧
    browse_endpoint demoStore (some demoBadToken) 0 none 0 20 =
      .error credentialsException ∧
    get_endpoint demoStore (some demoBadToken) 0 1 =
      .error credentialsException ∧
    browse_endpoint demoStore (some demoExpiredToken) 200 none 0 20 =
      .error credentialsException ∧
    get_endpoint demoStore (some demoExpiredToken) 200 1 =
      .error credentialsException :=
  ⟨rfl, rfl, rfl, rfl, rfl, rfl⟩

/-- C3. Every failing login, whether the email is unknown or the stored
hash rejects the password, returns the one `invalidCredentials` error, so
the two causes are indistinguishable from the result. -/
theorem c3_login_failure_is_one_error (s : Store) (email password : String)
    (now : Nat)
    (h : findUserByEmail s email = none ∨
         ∃ u, findUserByEmail s email = some u ∧
              verify_password password u.hashed_password = false) :
    login email password now s = .error invalidCredentials := by
  rcases h with h | ⟨u, hu, hv⟩
  · simp [login, h]
  · simp [login, hu, hv]

theorem c3_login_failure_is_one_error_witness :
    (findUserByEmail demoStore "nobody@example.com" = none ∨
     ∃ u, findUserByEmail demoStore "nobody@example.com" = some u ∧
          verify_password "pw" u.hashed_password = false) ∧
    login "nobody@example.com" "pw" 0 demoStore = .error invalidCredentials :=
  ⟨Or.inl (by decide),
   c3_login_failure_is_one_error demoStore "nobody@example.com" "pw" 0
     (Or.inl (by decide))⟩

/-- C4. Registering an email that is already present in the user store
fails with `duplicateEmail`, and the failed call persists nothing: the
store is returned exactly as it was. -/
theorem c4_register_duplicate_email_rejected (s : Store)
    (email password : String) (salt : Nat) (u : User)
    (hu : u ∈ s.users) (he : u.email = email) :
    register email password salt s = (.error duplicateEmail, s) := by
  have hsome : (findUserByEmail s email).isSome := by
    rw [findUserByEmail, List.find?_isSome]
    exact ⟨u, hu, by simp [he]⟩
  rcases Option.isSome_iff_exists.mp hsome with ⟨v, hv⟩
  simp [register, hv]

theorem c4_register_duplicate_email_rejected_witness :
    (demoUser ∈ demoStore.users ∧ demoUser.email = "alice@example.com") ∧
    register "alice@example.com" "other" 3 demoStore =
      (.error duplicateEmail, demoStore) :=
  ⟨⟨by decide, rfl⟩,
   c4_register_duplicate_email_rejected demoStore "alice@example.com"
     "other" 3 demoUser (by decide) rfl⟩

/-- C6. Removing a favorite the user never added, on a recipe that exists,
succeeds with 204 and leaves the whole store unchanged. -/
theorem c6_remove_missing_favorite_is_noop (s : Store) (actor : User)
    (rid : Nat) (r : Recipe) (hr : findRecipe s rid = some r)
    (hnf : (actor.id, rid) ∉ s.favorites) :
    remove_favorite rid actor s = (.ok (), s) := by
  have hany : s.favorites.any (fun p => p.1 == actor.id && p.2 == rid) = false := by
    rw [List.any_eq_false]
    intro p hp hcontra
    simp only [Bool.and_eq_true, beq_iff_eq] at hcontra
    exact hnf (by
      have : p = (actor.id, rid) := by
        obtain ⟨h1, h2⟩ := hcontra
        cases p
        simp_all
      rwa [this] at hp)
  simp [remove_favorite, hr, hany]

theorem c6_remove_missing_favorite_is_noop_witness :
    (findRecipe demoStore 1 = some demoRecipe ∧
     (demoUser.id, 1) ∉ demoStore.favorites) ∧
    remove_favorite 1 demoUser demoStore = (.ok (), demoStore) :=
  ⟨⟨by decide, by decide⟩,
   c6_remove_missing_favorite_is_noop demoStore demoUser 1 demoRecipe
     (by decide) (by decide)⟩

/-- C7. A user whose id differs from a recipe's owner gets 403 from both
`update_recipe` and `delete_recipe`, and both failed calls return the
store exactly as it was, so every stored field of the recipe (and
everything else) is unchanged. -/
theorem c7_nonowner_mutation_forbidden (s : Store) (rid : Nat) (r : Recipe)
    (b : User) (upd : RecipeUpdate) (hr : findRecipe s rid = some r)
    (hb : b.id ≠ r.owner_id) :
    update_recipe rid upd b s = (.error forbiddenErr, s) ∧
    delete_recipe rid b s = (.error forbiddenErr, s) := by
  have hne : (r.owner_id != b.id) = true := by
    simp [bne_iff_ne]
    exact fun h => hb h.symm
  constructor
  · simp [update_recipe, hr, hne]
  · simp [delete_recipe, hr, hne]

theorem c7_nonowner_mutation_forbidden_witness :
    (findRecipe demoStore 1 = some demoRecipe ∧ (2 : Nat) ≠ demoRecipe.owner_id) ∧
    (update_recipe 1 ⟨"X", none, [], []⟩ ⟨2, "bob@example.com", ⟨1, "pw"⟩, true⟩
       demoStore = (.error forbiddenErr, demoStore) ∧
     delete_recipe 1 ⟨2, "bob@example.com", ⟨1, "pw"⟩, true⟩ demoStore =
       (.error forbiddenErr, demoStore)) :=
  ⟨⟨by decide, by decide⟩,
   c7_nonowner_mutation_forbidden demoStore 1 demoRecipe
     ⟨2, "bob@example.com", ⟨1, "pw"⟩, true⟩ ⟨"X", none, [], []⟩
     (by decide) (by decide)⟩

theorem countP_eq_one_of_nodup_mem {α : Type} {l : List α} {p : α → Bool}
    {a : α} (hn : l.Nodup) (ha : a ∈ l)
    (hp : ∀ b, p b = true ↔ b = a) : l.countP p = 1 := by
  induction l with
  | nil => cases ha
  | cons x xs ih =>
    rw [List.nodup_cons] at hn
    rw [List.countP_cons]
    rcases List.mem_cons.mp ha with heq | hax
    · have hzero : xs.countP p = 0 := by
        rw [List.countP_eq_zero]
        intro b hb hpb
        exact hn.1 (heq ▸ (hp b).mp hpb ▸ hb)
      simp [hzero, (hp x).mpr heq.symm]
    · have hpx : p x = false := by
        cases hpxv : p x with
        | false => rfl
        | true => exact absurd hax (((hp x).mp hpxv) ▸ hn.1)
      simp [hpx, ih hn.2 hax]

/-- C5. Adding a favorite twice for the same (user, recipe) pair: given a
well-formed favorites table (no duplicate rows, the composite primary key)
and an existing recipe, the second call succeeds and the favorites table
holds exactly one row for that pair afterwards. -/
theorem c5_add_favorite_idempotent (s : Store) (actor : User) (rid : Nat)
    (r : Recipe) (hnd : s.favorites.Nodup) (hr : findRecipe s rid = some r) :
    (add_favorite rid actor (add_favorite rid actor s).2).1 = .ok () ∧
    ((add_favorite rid actor (add_favorite rid actor s).2).2).favorites.countP
      (fun p => p.1 == actor.id && p.2 == rid) = 1 := by
  have hp : ∀ b : Nat × Nat,
      (b.1 == actor.id && b.2 == rid) = true ↔ b = (actor.id, rid) := by
    intro b
    cases b with
    | mk x y => simp [Prod.ext_iff]
  have hr' : s.recipes.find? (fun x => x.id == rid) = some r := hr
  cases hany : s.favorites.any (fun p => p.1 == actor.id && p.2 == rid) with
  | true =>
    have hs1 : add_favorite rid actor s = (.ok (), s) := by
      simp [add_favorite, findRecipe, hr', hany]
    have hmem : (actor.id, rid) ∈ s.favorites := by
      rcases List.any_eq_true.mp hany with ⟨b, hb, hpb⟩
      exact (hp b).mp hpb ▸ hb
    simp only [hs1]
    exact ⟨trivial, countP_eq_one_of_nodup_mem hnd hmem hp⟩
  | false =>
    have hs1 : add_favorite rid actor s =
        (.ok (), { s with favorites := s.favorites ++ [(actor.id, rid)] }) := by
      simp [add_favorite, findRecipe, hr', hany]
    have hany2 : (s.favorites ++ [(actor.id, rid)]).any
        (fun p => p.1 == actor.id && p.2 == rid) = true := by
      rw [List.any_append]
      simp
    have hs2 : add_favorite rid actor
        { s with favorites := s.favorites ++ [(actor.id, rid)] } =
        (.ok (), { s with favorites := s.favorites ++ [(actor.id, rid)] }) := by
      simp [add_favorite, findRecipe, hr', hany2]
    have hzero : s.favorites.countP (fun p => p.1 == actor.id && p.2 == rid) = 0 := by
      rw [List.countP_eq_zero]
      intro b hb hpb
      rw [List.any_eq_false] at hany
      exact hany b hb hpb
    simp only [hs1, hs2]
    refine ⟨trivial, ?_⟩
    rw [List.countP_append, hzero]
    simp

theorem c5_add_favorite_idempotent_witness :
    (demoStore.favorites.Nodup ∧ findRecipe demoStore 1 = some demoRecipe) ∧
    ((add_favorite 1 demoUser (add_favorite 1 demoUser demoStore).2).1 = .ok () ∧
     ((add_favorite 1 demoUser (add_favorite 1 demoUser demoStore).2).2).favorites.countP
       (fun p => p.1 == demoUser.id && p.2 == 1) = 1) :=
  ⟨⟨by decide, by decide⟩,
   c5_add_favorite_idempotent demoStore demoUser 1 demoRecipe
     (by decide) (by decide)⟩

/-- C9. An owner's update applies exactly the supplied fields and leaves
the rest alone: the always-supplied `title`, `ingredients` and
`instructions` take the request's values, `description` takes the supplied
value when it was set and keeps the stored value when unset, `id` and
`owner_id` (never part of the update schema) are unchanged, and the store
is changed only by replacing that one row. -/
theorem c9_owner_update_is_partial (s : Store) (rid : Nat) (r : Recipe)
    (a : User) (upd : RecipeUpdate) (hr : findRecipe s rid = some r)
    (hown : r.owner_id = a.id) :
    update_recipe rid upd a s =
      (.ok (respOf (applyUpdate r upd) false),
       { s with recipes :=
          s.recipes.map (fun x => if x.id == rid then applyUpdate r upd else x) }) ∧
    (applyUpdate r upd).title = upd.title ∧
    (applyUpdate r upd).ingredients = upd.ingredients ∧
    (applyUpdate r upd).instructions = upd.instructions ∧
    (upd.description = none → (applyUpdate r upd).description = r.description) ∧
    (∀ d, upd.description = some d → (applyUpdate r upd).description = d) ∧
    (applyUpdate r upd).id = r.id ∧
    (applyUpdate r upd).owner_id = r.owner_id ∧
    (∀ x ∈ s.recipes, x.id ≠ rid → x ∈ (update_recipe rid upd a s).2.recipes) := by
  have hne : (r.owner_id != a.id) = false := by
    simp [hown]
  have hmain : update_recipe rid upd a s =
      (.ok (respOf (applyUpdate r upd) false),
       { s with recipes :=
          s.recipes.map (fun x => if x.id == rid then applyUpdate r upd else x) }) := by
    simp [update_recipe, hr, hne]
  refine ⟨hmain, rfl, rfl, rfl, ?_, ?_, rfl, rfl, ?_⟩
  · intro hd
    simp [applyUpdate, hd]
  · intro d hd
    simp [applyUpdate, hd]
  · intro x hx hxid
    rw [hmain]
    have : (fun y => if y.id == rid then applyUpdate r upd else y) x = x := by
      simp [hxid]
    exact this ▸ List.mem_map_of_mem _ hx

theorem c9_owner_update_is_partial_witness :
    (findRecipe demoStore 1 = some demoRecipe ∧ demoRecipe.owner_id = demoUser.id) ∧
    (update_recipe 1 ⟨"Scramble", none, ["egg"], ["stir"]⟩ demoUser demoStore =
      (.ok (respOf (applyUpdate demoRecipe ⟨"Scramble", none, ["egg"], ["stir"]⟩) false),
       { demoStore with recipes :=
          demoStore.recipes.map (fun x =>
            if x.id == 1 then applyUpdate demoRecipe ⟨"Scramble", none, ["egg"], ["stir"]⟩
            else x) }) ∧
     (applyUpdate demoRecipe ⟨"Scramble", none, ["egg"], ["stir"]⟩).title = "Scramble" ∧
     (applyUpdate demoRecipe ⟨"Scramble", none, ["egg"], ["stir"]⟩).ingredients = ["egg"] ∧
     (applyUpdate demoRecipe ⟨"Scramble", none, ["egg"], ["stir"]⟩).instructions = ["stir"] ∧
     ((none : Option (Option String)) = none →
       (applyUpdate demoRecipe ⟨"Scramble", none, ["egg"], ["stir"]⟩).description =
         demoRecipe.description) ∧
     (∀ d, (none : Option (Option String)) = some d →
       (applyUpdate demoRecipe ⟨"Scramble", none, ["egg"], ["stir"]⟩).description = d) ∧
     (applyUpdate demoRecipe ⟨"Scramble", none, ["egg"], ["stir"]⟩).id = demoRecipe.id ∧
     (applyUpdate demoRecipe ⟨"Scramble", none, ["egg"], ["stir"]⟩).owner_id =
       demoRecipe.owner_id ∧
     (∀ x ∈ demoStore.recipes, x.id ≠ 1 →
       x ∈ (update_recipe 1 ⟨"Scramble", none, ["egg"], ["stir"]⟩ demoUser demoStore).2.recipes)) :=
  ⟨⟨by decide, rfl⟩,
   c9_owner_update_is_partial demoStore 1 demoRecipe demoUser
     ⟨"Scramble", none, ["egg"], ["stir"]⟩ (by decide) rfl⟩

/-- Store with one favorite row, used to witness the invariant theorems. -/
def demoFavStore : Store := ⟨[demoUser], [demoRecipe], [(1, 1)], 2, 2⟩

/-- C10. Deleting a recipe also deletes every favorites row referencing it
(the SQLAlchemy secondary-table cascade), and the invariant that every
favorites row references an existing recipe is preserved by every
state-changing operation (`login`, `browse`, `get` and `list_favorites` do
not write the store).  Hence after a successful delete no user's favorite
set points at the removed recipe. -/
theorem c10_favorites_always_reference_existing_recipes (s : Store)
    (a : User) (rid : Nat) (email password : String) (salt : Nat)
    (rc : RecipeCreate) (upd : RecipeUpdate) (hval : favRefsValid s) :
    ((delete_recipe rid a s).1 = .ok () →
      ∀ p ∈ (delete_recipe rid a s).2.favorites, p.2 ≠ rid) ∧
    favRefsValid (delete_recipe rid a s).2 ∧
    favRefsValid (register email password salt s).2 ∧
    favRefsValid (create_recipe rc a s).2 ∧
    favRefsValid (update_recipe rid upd a s).2 ∧
    favRefsValid (add_favorite rid a s).2 ∧
    favRefsValid (remove_favorite rid a s).2 := by
  refine ⟨?_, ?_, ?_, ?_, ?_, ?_, ?_⟩
  · -- cascade: a successful delete leaves no favorites row for rid
    intro hok p hp
    cases hfind : findRecipe s rid with
    | none => simp [delete_recipe, hfind] at hok
    | some r =>
      cases hown : (r.owner_id != a.id) with
      | true => simp [delete_recipe, hfind, hown] at hok
      | false =>
        simp only [delete_recipe, hfind, hown] at hp
        have := (List.mem_filter.mp hp).2
        simpa using this
  · -- delete preserves the invariant
    cases hfind : findRecipe s rid with
    | none => simpa [favRefsValid, delete_recipe, hfind] using hval
    | some r =>
      cases hown : (r.owner_id != a.id) with
      | true => simpa [favRefsValid, delete_recipe, hfind, hown] using hval
      | false =>
        intro p hp
        simp only [delete_recipe, hfind, hown] at hp ⊢
        have hpf := List.mem_filter.mp hp
        rcases hval p hpf.1 with ⟨r0, hr0, hid0⟩
        have hne : p.2 ≠ rid := by simpa using hpf.2
        refine ⟨r0, List.mem_filter.mpr ⟨hr0, ?_⟩, hid0⟩
        simp [hid0, hne]
  · -- register preserves the invariant
    cases hfe : findUserByEmail s email with
    | some u => simpa [favRefsValid, register, hfe] using hval
    | none =>
      intro p hp
      simp only [register, hfe] at hp ⊢
      exact hval p hp
  · -- create preserves the invariant
    intro p hp
    simp only [create_recipe] at hp ⊢
    rcases hval p hp with ⟨r0, hr0, hid0⟩
    exact ⟨r0, List.mem_append_left _ hr0, hid0⟩
  · -- update preserves the invariant
    cases hfind : findRecipe s rid with
    | none => simpa [favRefsValid, update_recipe, hfind] using hval
    | some db =>
      cases hown : (db.owner_id != a.id) with
      | true => simpa [favRefsValid, update_recipe, hfind, hown] using hval
      | false =>
        have hmain : update_recipe rid upd a s =
            (.ok (respOf (applyUpdate db upd) false),
             { s with recipes :=
                s.recipes.map (fun x => if x.id == rid then applyUpdate db upd else x) }) := by
          simp [update_recipe, hfind, hown]
        intro p hp
        simp only [hmain] at hp ⊢
        rcases hval p hp with ⟨r0, hr0, hid0⟩
        have hdbid : db.id = rid := by
          have := List.find?_some hfind
          simpa using this
        refine ⟨(fun x => if x.id == rid then applyUpdate db upd else x) r0,
          List.mem_map_of_mem _ hr0, ?_⟩
        cases hrid : (r0.id == rid) with
        | true =>
          have h2 : r0.id = rid := by simpa using hrid
          simp only [hrid, if_true]
          show db.id = p.2
          rw [hdbid, ← h2, hid0]
        | false =>
          simp only [hrid]
          simpa using hid0
  · -- add_favorite preserves the invariant
    cases hfind : findRecipe s rid with
    | none => simpa [favRefsValid, add_favorite, hfind] using hval
    | some r =>
      cases hany : s.favorites.any (fun p => p.1 == a.id && p.2 == rid) with
      | true => simpa [favRefsValid, add_favorite, hfind, hany] using hval
      | false =>
        intro p hp
        simp only [add_favorite, hfind, hany] at hp ⊢
        rcases List.mem_append.mp hp with h | h
        · exact hval p h
        · have hpe : p = (a.id, rid) := by simpa using h
          refine ⟨r, List.mem_of_find?_eq_some hfind, ?_⟩
          have hrid : r.id = rid := by
            have := List.find?_some hfind
            simpa using this
          rw [hpe, hrid]
  · -- remove_favorite preserves the invariant
    cases hfind : findRecipe s rid with
    | none => simpa [favRefsValid, remove_favorite, hfind] using hval
    | some r =>
      cases hany : s.favorites.any (fun p => p.1 == a.id && p.2 == rid) with
      | false => simpa [favRefsValid, remove_favorite, hfind, hany] using hval
      | true =>
        intro p hp
        simp only [remove_favorite, hfind, hany] at hp ⊢
        exact hval p (List.mem_filter.mp hp).1

theorem c10_favorites_always_reference_existing_recipes_witness :
    favRefsValid demoFavStore ∧
    (((delete_recipe 1 demoUser demoFavStore).1 = .ok () →
       ∀ p ∈ (delete_recipe 1 demoUser demoFavStore).2.favorites, p.2 ≠ 1) ∧
     favRefsValid (delete_recipe 1 demoUser demoFavStore).2 ∧
     favRefsValid (register "bob@example.com" "pw1234" 3 demoFavStore).2 ∧
     favRefsValid (create_recipe ⟨"Cake", none, ["flour"], ["bake"]⟩ demoUser demoFavStore).2 ∧
     favRefsValid (update_recipe 1 ⟨"Cake", none, ["flour"], ["bake"]⟩ demoUser demoFavStore).2 ∧
     favRefsValid (add_favorite 1 demoUser demoFavStore).2 ∧
     favRefsValid (remove_favorite 1 demoUser demoFavStore).2) :=
  ⟨by decide,
   c10_favorites_always_reference_existing_recipes demoFavStore demoUser 1
     "bob@example.com" "pw1234" 3 ⟨"Cake", none, ["flour"], ["bake"]⟩
     ⟨"Cake", none, ["flour"], ["bake"]⟩ (by decide)⟩

/-- Recipe whose title "Egg" is matched by the ILIKE pattern of the
wildcard query "e_g" (the underscore consumes the first g) although "e_g"
is not a substring of any of its fields. -/
def wildRecipe : Recipe := ⟨1, "Egg", none, ["egg"], ["boil"], 1⟩

/-- Store holding `wildRecipe`, for the wildcard counterexample. -/
def wildStore : Store := ⟨[demoUser], [wildRecipe], [], 2, 2⟩

theorem parseLike_of_no_wildcards (cs : List Char)
    (h : ∀ c ∈ cs, c ≠ '%' ∧ c ≠ '_' ∧ c ≠ '\\') :
    parseLike (cs ++ ['%']) = cs.map LikeTok.lit ++ [LikeTok.any] := by
  induction cs with
  | nil => simp [parseLike, parseLikeAux]
  | cons c cs ih =>
    obtain ⟨h1, h2, h3⟩ := h c (List.mem_cons_self c cs)
    have hrest : parseLikeAux false (cs ++ ['%']) =
        cs.map LikeTok.lit ++ [LikeTok.any] :=
      ih (fun d hd => h d (List.mem_cons_of_mem c hd))
    simp [parseLike, parseLikeAux, h1, h2, h3, hrest]

theorem likeRun_lit_append_any (cs : List Char) :
    ∀ t : List Char,
      likeRun (cs.map LikeTok.lit ++ [LikeTok.any]) t = cs.isPrefixOf t := by
  induction cs with
  | nil =>
    intro t
    simp [likeRun, List.isPrefixOf, List.any_eq_true]
  | cons c cs ih =>
    intro t
    cases t with
    | nil => simp [likeRun, List.isPrefixOf]
    | cons d t2 => simp [likeRun, List.isPrefixOf, ih t2]

theorem ilikeWrapped_eq_containsCI (hay q : String)
    (hq : ∀ c ∈ lowerChars q, c ≠ '%' ∧ c ≠ '_' ∧ c ≠ '\\') :
    ilikeWrapped hay q = containsCI hay q := by
  have hpw : parseLikeAux false (lowerChars q ++ ['%']) =
      (lowerChars q).map LikeTok.lit ++ [LikeTok.any] :=
    parseLike_of_no_wildcards _ hq
  have h0 : parseLikeAux false ('%' :: (lowerChars q ++ ['%'])) =
      LikeTok.any :: ((lowerChars q).map LikeTok.lit ++ [LikeTok.any]) := by
    simp [parseLikeAux, hpw]
  simp only [ilikeWrapped, parseLike]
  rw [List.cons_append, h0]
  simp only [likeRun, likeRun_lit_append_any]
  rfl

/-- C8 (counterexample). The frozen claim quantifies over every non-empty
query, but the code interpolates the query into the ILIKE pattern
unescaped, so SQL wildcards stay active: at q = "e_g" (non-empty), browse
over a store holding the recipe titled "Egg" returns that recipe — ILIKE
percent-e-underscore-g-percent matches "Egg", the underscore consuming the
first g — although "e_g" is not a case-insensitive substring of its title,
its description is NULL, and no ingredient equals "e_g".  This refutes the
claim's "every returned recipe satisfies one of the three conditions" as
stated. -/
theorem c8_browse_query_wildcard_counterexample :
    ("e_g" : String) ≠ "" ∧
    respOf wildRecipe false ∈ (browse_recipes (some "e_g") 0 20 none wildStore).recipes ∧
    containsCI (respOf wildRecipe false).title "e_g" = false ∧
    (respOf wildRecipe false).description = none ∧
    (respOf wildRecipe false).ingredients.contains "e_g" = false := by
  refine ⟨by decide, by decide, by decide, rfl, by decide⟩

/-- C8 (amended: restricted to queries without the SQL pattern
metacharacters `%`, `_` and `\`, on which the unescaped ILIKE pattern
means literal substring search; `lowerChars` fixes those three characters,
so the hypothesis says exactly that q avoids them).  For such a non-empty
query the page returned by browse is exactly the filtered recipe list
after offset and limit, every returned recipe corresponds to a stored one
satisfying at least one of the three OR'd conditions — title contains the
query case-insensitively, description contains it case-insensitively, or
the ingredient list holds an exact element match — and conversely every
stored recipe satisfying one of the conditions passes the code's filter,
so only pagination excludes it. -/
theorem c8_browse_query_filter (s : Store) (q : String) (skip limit : Nat)
    (viewer : Option User) (hq : q ≠ "")
    (hw : ∀ c ∈ lowerChars q, c ≠ '%' ∧ c ≠ '_' ∧ c ≠ '\\') :
    (∃ annot : Recipe → Bool,
      (browse_recipes (some q) skip limit viewer s).recipes =
        (((s.recipes.filter (matchesQuery q)).drop skip).take limit).map
          (fun r => respOf r (annot r))) ∧
    (∀ rr ∈ (browse_recipes (some q) skip limit viewer s).recipes,
      ∃ r ∈ s.recipes,
        rr.id = r.id ∧
        (containsCI r.title q = true ∨
         (∃ d, r.description = some d ∧ containsCI d q = true) ∨
         q ∈ r.ingredients)) ∧
    (∀ r ∈ s.recipes,
      (containsCI r.title q = true ∨
       (∃ d, r.description = some d ∧ containsCI d q = true) ∨
       q ∈ r.ingredients) →
      matchesQuery q r = true) := by
  have hiw : ∀ hay, ilikeWrapped hay q = containsCI hay q :=
    fun hay => ilikeWrapped_eq_containsCI hay q hw
  have hmq : ∀ r : Recipe, matchesQuery q r =
      (containsCI r.title q ||
       (match r.description with
        | none => false
        | some d => containsCI d q) ||
       r.ingredients.contains q) := by
    intro r
    simp only [matchesQuery, hiw]
  have hpage : (browse_recipes (some q) skip limit viewer s).recipes =
      (((s.recipes.filter (matchesQuery q)).drop skip).take limit).map
        (fun r => respOf r
          ((match viewer with
            | none => ([] : List Nat)
            | some u => favIdsOf s u.id).contains r.id)) := by
    simp [browse_recipes, hq]
  refine ⟨⟨_, hpage⟩, ?_, ?_⟩
  · intro rr hrr
    rw [hpage] at hrr
    rcases List.mem_map.mp hrr with ⟨r, hrpage, hresp⟩
    have hrfil : r ∈ s.recipes.filter (matchesQuery q) :=
      List.mem_of_mem_drop (List.mem_of_mem_take hrpage)
    have hrs := List.mem_filter.mp hrfil
    refine ⟨r, hrs.1, ?_, ?_⟩
    · rw [← hresp]
      rfl
    · have hm := hrs.2
      rw [hmq r] at hm
      simp only [Bool.or_eq_true] at hm
      rcases hm with (hm | hm) | hm
      · exact Or.inl hm
      · cases hd : r.description with
        | none => rw [hd] at hm; cases hm
        | some d =>
          rw [hd] at hm
          exact Or.inr (Or.inl ⟨d, rfl, hm⟩)
      · exact Or.inr (Or.inr (by simpa using hm))
  · intro r hr hcond
    rw [hmq r]
    simp only [Bool.or_eq_true]
    rcases hcond with hc | ⟨d, hd, hc⟩ | hc
    · exact Or.inl (Or.inl hc)
    · refine Or.inl (Or.inr ?_)
      rw [hd]
      exact hc
    · refine Or.inr ?_
      simpa using hc

theorem c8_browse_query_filter_witness :
    (("egg" : String) ≠ "" ∧
     ∀ c ∈ lowerChars "egg", c ≠ '%' ∧ c ≠ '_' ∧ c ≠ '\\') ∧
    ((∃ annot : Recipe → Bool,
       (browse_recipes (some "egg") 0 20 none demoStore).recipes =
         (((demoStore.recipes.filter (matchesQuery "egg")).drop 0).take 20).map
           (fun r => respOf r (annot r))) ∧
     (∀ rr ∈ (browse_recipes (some "egg") 0 20 none demoStore).recipes,
       ∃ r ∈ demoStore.recipes,
         rr.id = r.id ∧
         (containsCI r.title "egg" = true ∨
          (∃ d, r.description = some d ∧ containsCI d "egg" = true) ∨
          "egg" ∈ r.ingredients)) ∧
     (∀ r ∈ demoStore.recipes,
       (containsCI r.title "egg" = true ∨
        (∃ d, r.description = some d ∧ containsCI d "egg" = true) ∨
        "egg" ∈ r.ingredients) →
       matchesQuery "egg" r = true)) :=
  ⟨⟨by decide, by decide⟩,
   c8_browse_query_filter demoStore "egg" 0 20 none (by decide) (by decide)⟩

/-- Store with no rows, as after `Base.metadata.create_all`. -/
def emptyStore : Store := ⟨[], [], [], 1, 1⟩

/-- C2. Registering a fresh email and then logging in with the same
credentials succeeds, and the token issued by login verifies (through
`get_current_user`, at any time `now2` not past the token's expiry) to the
very user id that register created.  The hypotheses are that the email is
not yet registered and that the id the autoincrement will assign is not
already in use — the primary-key guarantee of the store. -/
theorem c2_register_login_verify_roundtrip (s : Store)
    (email password : String) (salt now now2 : Nat)
    (hfree : findUserByEmail s email = none)
    (hfresh : findUserById s s.nextUserId = none)
    (hnow : now2 ≤ now + ACCESS_TOKEN_EXPIRE_MINUTES) :
    ∃ (resp : UserResponse) (s1 : Store) (t : Token) (u : User),
      register email password salt s = (.ok resp, s1) ∧
      login email password now s1 = .ok t ∧
      get_current_user s1 (some t) now2 = .ok u ∧
      u.id = resp.id := by
  have hfree' : s.users.find? (fun u => u.email == email) = none := hfree
  have hfresh' : s.users.find? (fun u => u.id == s.nextUserId) = none := hfresh
  refine ⟨⟨s.nextUserId, email, true⟩,
    { s with users := s.users ++ [⟨s.nextUserId, email, ⟨salt, password⟩, true⟩],
             nextUserId := s.nextUserId + 1 },
    create_access_token s.nextUserId now,
    ⟨s.nextUserId, email, ⟨salt, password⟩, true⟩,
    ?_, ?_, ?_, rfl⟩
  · simp [register, hfree, hash_password]
  · have hfind1 : findUserByEmail
        { s with users := s.users ++ [⟨s.nextUserId, email, ⟨salt, password⟩, true⟩],
                 nextUserId := s.nextUserId + 1 } email =
        some ⟨s.nextUserId, email, ⟨salt, password⟩, true⟩ := by
      have happ : (s.users ++ [(⟨s.nextUserId, email, ⟨salt, password⟩, true⟩ : User)]).find?
          (fun u => u.email == email) =
          some ⟨s.nextUserId, email, ⟨salt, password⟩, true⟩ := by
        rw [find?_append_of_none _ hfree']
        simp [List.find?]
      exact happ
    simp [login, hfind1, verify_password]
  · have hfind2 : findUserById
        { s with users := s.users ++ [⟨s.nextUserId, email, ⟨salt, password⟩, true⟩],
                 nextUserId := s.nextUserId + 1 } s.nextUserId =
        some ⟨s.nextUserId, email, ⟨salt, password⟩, true⟩ := by
      have happ : (s.users ++ [(⟨s.nextUserId, email, ⟨salt, password⟩, true⟩ : User)]).find?
          (fun u => u.id == s.nextUserId) =
          some ⟨s.nextUserId, email, ⟨salt, password⟩, true⟩ := by
        rw [find?_append_of_none _ hfresh']
        simp [List.find?]
      exact happ
    have hnl : ¬ (now + ACCESS_TOKEN_EXPIRE_MINUTES < now2) := Nat.not_lt.mpr hnow
    simp [get_current_user, oauth2_scheme, jwt_decode, create_access_token, hfind2, hnl]

theorem c2_register_login_verify_roundtrip_witness :
    (findUserByEmail emptyStore "alice@example.com" = none ∧
     findUserById emptyStore 1 = none ∧
     (0 : Nat) ≤ 0 + ACCESS_TOKEN_EXPIRE_MINUTES) ∧
    (∃ (resp : UserResponse) (s1 : Store) (t : Token) (u : User),
      register "alice@example.com" "secret1" 7 emptyStore = (.ok resp, s1) ∧
      login "alice@example.com" "secret1" 0 s1 = .ok t ∧
      get_current_user s1 (some t) 0 = .ok u ∧
      u.id = resp.id) :=
  ⟨⟨by decide, by decide, by decide⟩,
   c2_register_login_verify_roundtrip emptyStore "alice@example.com" "secret1"
     7 0 0 (by decide) (by decide) (by decide)⟩

end RecipeExplorer
